import Mathlib

/-!
Verification of the transfer-money program (src/transfer_money/rust/transfer_money.rs).

The Rust program keeps, for each `Account`, a `Vec<f32>` ledger and computes the
balance by folding `+` over it.  The development has two layers.

The first layer carries `ℚ` entries and folds them exactly.  Ledger *entries*
are faithful there: the program stores each pushed `f32` value exactly, and
`f32` negation is exact, so statements about which entries are appended, about
ledger structure, and about exact sums of the stored entries are statements
about the program.  The computed balance, however, is idealized in this layer.

The second layer, namespace `F32`, models the program's arithmetic itself:
finite IEEE-754 binary32 values are represented by the rationals they denote,
and every addition performed by `current_balance`'s fold is rounded to the
nearest representable value, ties to even, with subnormal precision below
`2^(-126)` (overflow to infinity and NaN operands are outside the model; every
concrete value used here is far inside the finite range).  Claims whose truth
depends on the rounding are settled in this layer.

Mutation through `&mut` references is modelled by explicit state passing:
every mutating method takes the account value and returns the updated value.
-/

/-- `data::Account`: an object that keeps a record of its transactions
(`pub ledger: Vec<f32>`). -/
structure Account where
  ledger : List ℚ
deriving DecidableEq

/-- `Account::current_balance`: `self.ledger.iter().fold(0_f32, |a, b| a + b)`.
A pure function of the account: it takes `&self` and returns the fold, so the
ledger is unchanged by the call and the call always succeeds. -/
def Account.current_balance (a : Account) : ℚ :=
  a.ledger.foldl (fun x y => x + y) 0

/-- `MoneySourceRoleRequirement::available_balance` for `data::Account`:
`self.current_balance()`. -/
def Account.available_balance (a : Account) : ℚ :=
  a.current_balance

/-- `MoneySourceRoleRequirement::decrease_balance` for `data::Account`:
`self.ledger.push(-amount)`. -/
def Account.decrease_balance (a : Account) (amount : ℚ) : Account :=
  Account.mk (a.ledger ++ [-amount])

/-- `MoneyDestinationRoleRequirement::increase_balance` for `data::Account`:
`self.ledger.push(amount)`. -/
def Account.increase_balance (a : Account) (amount : ℚ) : Account :=
  Account.mk (a.ledger ++ [amount])

/-- `MoneyDestinationRoleMethods::receive_transfer`:
`self.increase_balance(amount)`. -/
def Account.receive_transfer (a : Account) (amount : ℚ) : Account :=
  a.increase_balance amount

/-- `MoneySourceRoleMethods::send_transfer`:
`if self.available_balance() >= amount { self.decrease_balance(amount);
sink.receive_transfer(amount); }`.  Returns the updated (source, sink) pair. -/
def Account.send_transfer (source : Account) (amount : ℚ) (sink : Account) :
    Account × Account :=
  if source.available_balance ≥ amount then
    (source.decrease_balance amount, sink.receive_transfer amount)
  else
    (source, sink)

/-- `context::transfer_money::TransferMoney`: the context holding the source
account, the destination account and the amount.  The two `&'a mut` borrows are
modelled as the two account values held by the structure. -/
structure TransferMoney where
  source : Account
  destination : Account
  amount : ℚ

/-- `TransferMoney::new`. -/
def TransferMoney.new (source destination : Account) (amount : ℚ) :
    TransferMoney :=
  TransferMoney.mk source destination amount

/-- `TransferMoney::execute`:
`self.source.send_transfer(self.amount, self.destination)`.  Returns the
updated (source, destination) pair. -/
def TransferMoney.execute (t : TransferMoney) : Account × Account :=
  t.source.send_transfer t.amount t.destination

/-- `send_transfer` with source and sink aliased to one and the same account:
the sequential effect of the body of `MoneySourceRoleMethods::send_transfer`
when both `&mut` references denote the same `Account`, threaded through a
single state. -/
def Account.self_transfer (a : Account) (amount : ℚ) : Account :=
  if a.available_balance ≥ amount then
    (a.decrease_balance amount).receive_transfer amount
  else
    a

/-- The ledger of `after` extends the ledger of `before` by appending: the
previous contents are an initial segment of the new contents. -/
def ledgerExtends (before after : Account) : Prop :=
  ∃ t, after.ledger = before.ledger ++ t

namespace F32

/-- Exponent of the unit in the last place of the binary32 value nearest to
`q`: `Int.log 2 |q|` is the exponent of the binade of `q`, the significand
carries 23 fraction bits, and the exponent clamps at `-149` in the subnormal
range (binades below `2^(-126)`). -/
def ulpExp (q : ℚ) : ℤ :=
  max (Int.log 2 |q| - 23) (-149)

/-- Round a rational to the nearest integer, ties to even. -/
def rne (q : ℚ) : ℤ :=
  if q - (⌊q⌋ : ℚ) < 1 / 2 then ⌊q⌋
  else if q - (⌊q⌋ : ℚ) > 1 / 2 then ⌊q⌋ + 1
  else if ⌊q⌋ % 2 = 0 then ⌊q⌋ else ⌊q⌋ + 1

/-- Round a rational to the nearest IEEE-754 binary32 value (as the rational
it denotes): round to the nearest multiple of the unit in the last place,
ties to even.  Finite range only: overflow to infinity is not modelled. -/
def roundF32 (q : ℚ) : ℚ :=
  if q = 0 then 0
  else (rne (q / (2 : ℚ) ^ ulpExp q) : ℚ) * (2 : ℚ) ^ ulpExp q

/-- `data::Account` with its `f32` arithmetic: the ledger holds the rational
values denoted by the stored binary32 entries. -/
structure Account where
  ledger : List ℚ
deriving DecidableEq

/-- `Account::current_balance` with `f32` semantics:
`self.ledger.iter().fold(0_f32, |a, b| a + b)`, each partial sum rounded to
the nearest binary32 value, ties to even. -/
def Account.current_balance (a : Account) : ℚ :=
  a.ledger.foldl (fun x y => roundF32 (x + y)) 0

/-- `available_balance` for `data::Account`: `self.current_balance()`. -/
def Account.available_balance (a : Account) : ℚ :=
  a.current_balance

/-- `decrease_balance` for `data::Account`: `self.ledger.push(-amount)`
(`f32` negation is exact). -/
def Account.decrease_balance (a : Account) (amount : ℚ) : Account :=
  Account.mk (a.ledger ++ [-amount])

/-- `increase_balance` for `data::Account`: `self.ledger.push(amount)`. -/
def Account.increase_balance (a : Account) (amount : ℚ) : Account :=
  Account.mk (a.ledger ++ [amount])

/-- `MoneyDestinationRoleMethods::receive_transfer`:
`self.increase_balance(amount)`. -/
def Account.receive_transfer (a : Account) (amount : ℚ) : Account :=
  a.increase_balance amount

/-- `MoneySourceRoleMethods::send_transfer` over the `f32` accounts. -/
def Account.send_transfer (source : Account) (amount : ℚ) (sink : Account) :
    Account × Account :=
  if source.available_balance ≥ amount then
    (source.decrease_balance amount, sink.receive_transfer amount)
  else
    (source, sink)

/-- `context::transfer_money::TransferMoney` over the `f32` accounts. -/
structure TransferMoney where
  source : Account
  destination : Account
  amount : ℚ

/-- `TransferMoney::execute` over the `f32` accounts. -/
def TransferMoney.execute (t : TransferMoney) : Account × Account :=
  t.source.send_transfer t.amount t.destination

/-- `exactAddFrom acc l` holds when, folding the program's rounded addition
over `l` starting from the partial sum `acc`, every single addition rounds
exactly (the rounding is the identity at each step). -/
def exactAddFrom (acc : ℚ) : List ℚ → Bool
  | [] => true
  | x :: xs => decide (roundF32 (acc + x) = acc + x) && exactAddFrom (acc + x) xs

end F32

/-! ### Basic lemmas about the fold that computes the balance -/

lemma foldl_add_eq_add_sum (l : List ℚ) (x : ℚ) :
    l.foldl (fun a b => a + b) x = x + l.sum := by
  induction l generalizing x with
  | nil => simp
  | cons h t ih => simp [List.foldl_cons, ih, add_assoc]

lemma current_balance_eq_sum (a : Account) : a.current_balance = a.ledger.sum := by
  simp [Account.current_balance, foldl_add_eq_add_sum]

lemma decrease_balance_balance (a : Account) (amount : ℚ) :
    (a.decrease_balance amount).current_balance = a.current_balance - amount := by
  simp [current_balance_eq_sum, Account.decrease_balance, sub_eq_add_neg]

lemma increase_balance_balance (a : Account) (amount : ℚ) :
    (a.increase_balance amount).current_balance = a.current_balance + amount := by
  simp [current_balance_eq_sum, Account.increase_balance]

lemma F32.exactAddFrom_fold (l : List ℚ) (acc : ℚ)
    (h : F32.exactAddFrom acc l = true) :
    l.foldl (fun x y => F32.roundF32 (x + y)) acc = acc + l.sum := by
  induction l generalizing acc with
  | nil => simp
  | cons x xs ih =>
    simp only [F32.exactAddFrom, Bool.and_eq_true, decide_eq_true_eq] at h
    rw [List.foldl_cons, h.1, ih _ h.2, List.sum_cons]
    ring

lemma F32.current_balance_exact (a : F32.Account)
    (h : F32.exactAddFrom 0 a.ledger = true) :
    a.current_balance = a.ledger.sum := by
  rw [F32.Account.current_balance, F32.exactAddFrom_fold _ _ h, zero_add]

/-! ### Evaluation lemmas for the binary32 rounding -/

lemma F32.rne_down (q : ℚ) (f : ℤ) (h1 : (f : ℚ) ≤ q)
    (h2 : q - (f : ℚ) < 1 / 2) :
    F32.rne q = f := by
  have hfl : ⌊q⌋ = f := by
    rw [Int.floor_eq_iff]
    refine ⟨h1, ?_⟩
    linarith
  simp only [F32.rne, hfl]
  rw [if_pos h2]

lemma F32.rne_up (q : ℚ) (f : ℤ) (h1 : q < (f : ℚ) + 1)
    (h2 : 1 / 2 < q - (f : ℚ)) :
    F32.rne q = f + 1 := by
  have hfl : ⌊q⌋ = f := by
    rw [Int.floor_eq_iff]
    refine ⟨by linarith, ?_⟩
    linarith
  simp only [F32.rne, hfl]
  rw [if_neg (by linarith), if_pos h2]

lemma F32.rne_tie_even (q : ℚ) (f : ℤ) (hq : q - (f : ℚ) = 1 / 2)
    (he : f % 2 = 0) :
    F32.rne q = f := by
  have hfl : ⌊q⌋ = f := by
    rw [Int.floor_eq_iff]
    refine ⟨by linarith, ?_⟩
    linarith
  simp only [F32.rne, hfl]
  rw [if_neg (by rw [hq]; norm_num), if_neg (by rw [hq]; norm_num), if_pos he]

lemma F32.int_log_q (q : ℚ) (n e : ℕ) (hq : q = (n : ℚ)) (h1 : 2 ^ e ≤ n)
    (h2 : n < 2 ^ (e + 1)) :
    Int.log 2 |q| = (e : ℤ) := by
  rw [hq, abs_of_nonneg (Nat.cast_nonneg n), Int.log_natCast,
    Nat.log_eq_of_pow_le_of_lt_pow h1 h2]

lemma F32.roundF32_eval (q : ℚ) (e k m : ℤ) (hq : q ≠ 0)
    (hlog : Int.log 2 |q| = e) (hk : max (e - 23) (-149 : ℤ) = k)
    (hm : F32.rne (q / (2 : ℚ) ^ k) = m) :
    F32.roundF32 q = (m : ℚ) * (2 : ℚ) ^ k := by
  rw [F32.roundF32, if_neg hq, F32.ulpExp, hlog, hk, hm]

lemma F32.roundF32_1 : F32.roundF32 1 = 1 := by
  rw [F32.roundF32_eval 1 0 (-23) 8388608 (by norm_num)
    (F32.int_log_q 1 1 0 (by norm_num) (by norm_num) (by norm_num))
    (by norm_num)
    (F32.rne_down _ 8388608 (by norm_num) (by norm_num))]
  norm_num

lemma F32.roundF32_2 : F32.roundF32 2 = 2 := by
  rw [F32.roundF32_eval 2 1 (-22) 8388608 (by norm_num)
    (F32.int_log_q 2 2 1 (by norm_num) (by norm_num) (by norm_num))
    (by norm_num)
    (F32.rne_down _ 8388608 (by norm_num) (by norm_num))]
  norm_num

lemma F32.roundF32_3 : F32.roundF32 3 = 3 := by
  rw [F32.roundF32_eval 3 1 (-22) 12582912 (by norm_num)
    (F32.int_log_q 3 3 1 (by norm_num) (by norm_num) (by norm_num))
    (by norm_num)
    (F32.rne_down _ 12582912 (by norm_num) (by norm_num))]
  norm_num

lemma F32.roundF32_4 : F32.roundF32 4 = 4 := by
  rw [F32.roundF32_eval 4 2 (-21) 8388608 (by norm_num)
    (F32.int_log_q 4 4 2 (by norm_num) (by norm_num) (by norm_num))
    (by norm_num)
    (F32.rne_down _ 8388608 (by norm_num) (by norm_num))]
  norm_num

lemma F32.roundF32_5 : F32.roundF32 5 = 5 := by
  rw [F32.roundF32_eval 5 2 (-21) 10485760 (by norm_num)
    (F32.int_log_q 5 5 2 (by norm_num) (by norm_num) (by norm_num))
    (by norm_num)
    (F32.rne_down _ 10485760 (by norm_num) (by norm_num))]
  norm_num

lemma F32.roundF32_6 : F32.roundF32 6 = 6 := by
  rw [F32.roundF32_eval 6 2 (-21) 12582912 (by norm_num)
    (F32.int_log_q 6 6 2 (by norm_num) (by norm_num) (by norm_num))
    (by norm_num)
    (F32.rne_down _ 12582912 (by norm_num) (by norm_num))]
  norm_num

lemma F32.roundF32_12 : F32.roundF32 12 = 12 := by
  rw [F32.roundF32_eval 12 3 (-20) 12582912 (by norm_num)
    (F32.int_log_q 12 12 3 (by norm_num) (by norm_num) (by norm_num))
    (by norm_num)
    (F32.rne_down _ 12582912 (by norm_num) (by norm_num))]
  norm_num

lemma F32.roundF32_1000 : F32.roundF32 1000 = 1000 := by
  rw [F32.roundF32_eval 1000 9 (-14) 16384000 (by norm_num)
    (F32.int_log_q 1000 1000 9 (by norm_num) (by norm_num) (by norm_num))
    (by norm_num)
    (F32.rne_down _ 16384000 (by norm_num) (by norm_num))]
  norm_num

lemma F32.roundF32_16777216 : F32.roundF32 16777216 = 16777216 := by
  rw [F32.roundF32_eval 16777216 24 1 8388608 (by norm_num)
    (F32.int_log_q 16777216 16777216 24 (by norm_num) (by norm_num)
      (by norm_num))
    (by norm_num)
    (F32.rne_down _ 8388608 (by norm_num) (by norm_num))]
  norm_num

lemma F32.roundF32_16777217 : F32.roundF32 16777217 = 16777216 := by
  rw [F32.roundF32_eval 16777217 24 1 8388608 (by norm_num)
    (F32.int_log_q 16777217 16777217 24 (by norm_num) (by norm_num)
      (by norm_num))
    (by norm_num)
    (F32.rne_tie_even _ 8388608 (by norm_num) (by norm_num))]
  norm_num

lemma F32.roundF32_16777218 : F32.roundF32 16777218 = 16777218 := by
  rw [F32.roundF32_eval 16777218 24 1 8388609 (by norm_num)
    (F32.int_log_q 16777218 16777218 24 (by norm_num) (by norm_num)
      (by norm_num))
    (by norm_num)
    (F32.rne_down _ 8388609 (by norm_num) (by norm_num))]
  norm_num

lemma F32.roundF32_100000000 : F32.roundF32 100000000 = 100000000 := by
  rw [F32.roundF32_eval 100000000 26 3 12500000 (by norm_num)
    (F32.int_log_q 100000000 100000000 26 (by norm_num) (by norm_num)
      (by norm_num))
    (by norm_num)
    (F32.rne_down _ 12500000 (by norm_num) (by norm_num))]
  norm_num

lemma F32.roundF32_99999999 : F32.roundF32 99999999 = 100000000 := by
  rw [F32.roundF32_eval 99999999 26 3 12500000 (by norm_num)
    (F32.int_log_q 99999999 99999999 26 (by norm_num) (by norm_num)
      (by norm_num))
    (by norm_num)
    (show F32.rne ((99999999 : ℚ) / (2 : ℚ) ^ (3 : ℤ)) = 12500000 from
      F32.rne_up _ 12499999 (by norm_num) (by norm_num))]
  norm_num

lemma F32.roundF32_100000001 : F32.roundF32 100000001 = 100000000 := by
  rw [F32.roundF32_eval 100000001 26 3 12500000 (by norm_num)
    (F32.int_log_q 100000001 100000001 26 (by norm_num) (by norm_num)
      (by norm_num))
    (by norm_num)
    (F32.rne_down _ 12500000 (by norm_num) (by norm_num))]
  norm_num

/-! ### Claim theorems -/

/-- C1 counterexample: with `f32` arithmetic, transferring 1 from a source
whose ledger is `[100000000]` (an exactly representable binary32 value)
satisfies the claim's precondition `amount ≤ source.current_balance()`, yet
the source balance does not decrease at all — `100000000 - 1` rounds back to
`100000000` at that magnitude — and the combined computed balance grows by 1
instead of staying unchanged. -/
theorem execute_exact_conservation_counterexample :
    (1 : ℚ) ≤ (F32.Account.mk [100000000]).current_balance ∧
    ¬ ((F32.TransferMoney.mk (F32.Account.mk [100000000])
          (F32.Account.mk []) 1).execute.1.current_balance
        = (F32.Account.mk [100000000]).current_balance - 1) ∧
    ¬ ((F32.TransferMoney.mk (F32.Account.mk [100000000])
          (F32.Account.mk []) 1).execute.1.current_balance
        + (F32.TransferMoney.mk (F32.Account.mk [100000000])
            (F32.Account.mk []) 1).execute.2.current_balance
        = (F32.Account.mk [100000000]).current_balance
          + (F32.Account.mk []).current_balance) := by
  have hbal : (F32.Account.mk [100000000]).current_balance = 100000000 := by
    norm_num [F32.Account.current_balance, F32.roundF32_100000000]
  have hsrc : (F32.TransferMoney.mk (F32.Account.mk [100000000])
      (F32.Account.mk []) 1).execute.1.current_balance = 100000000 := by
    norm_num [F32.TransferMoney.execute, F32.Account.send_transfer,
      F32.Account.available_balance, F32.Account.decrease_balance,
      F32.Account.receive_transfer, F32.Account.increase_balance,
      F32.Account.current_balance, F32.roundF32_100000000, F32.roundF32_99999999]
  have hdst : (F32.TransferMoney.mk (F32.Account.mk [100000000])
      (F32.Account.mk []) 1).execute.2.current_balance = 1 := by
    norm_num [F32.TransferMoney.execute, F32.Account.send_transfer,
      F32.Account.available_balance, F32.Account.decrease_balance,
      F32.Account.receive_transfer, F32.Account.increase_balance,
      F32.Account.current_balance, F32.roundF32_100000000, F32.roundF32_1]
  have hnil : (F32.Account.mk ([] : List ℚ)).current_balance = 0 := rfl
  refine ⟨by rw [hbal]; norm_num, ?_, ?_⟩
  · rw [hsrc, hbal]
    norm_num
  · rw [hsrc, hdst, hbal, hnil]
    norm_num

/-- C1 (amended): for every pair of accounts and every amount with
`amount ≤ source.current_balance()` (the balance the program computes) before
the call, `execute` appends exactly the entry `-amount` to the source ledger
and `amount` to the destination ledger, so the exact arithmetic sum of the
source's stored entries decreases by exactly `amount`, the destination's
increases by exactly `amount`, and the combined exact entry-sum of the two
accounts is unchanged.  The computed `f32` balances track these deltas only up
to rounding (see the counterexample). -/
theorem execute_conserves_entry_sum (s d : F32.Account) (amount : ℚ)
    (h : amount ≤ s.current_balance) :
    (F32.TransferMoney.mk s d amount).execute.1.ledger = s.ledger ++ [-amount] ∧
    (F32.TransferMoney.mk s d amount).execute.2.ledger = d.ledger ++ [amount] ∧
    (F32.TransferMoney.mk s d amount).execute.1.ledger.sum
        = s.ledger.sum - amount ∧
    (F32.TransferMoney.mk s d amount).execute.2.ledger.sum
        = d.ledger.sum + amount ∧
    (F32.TransferMoney.mk s d amount).execute.1.ledger.sum
        + (F32.TransferMoney.mk s d amount).execute.2.ledger.sum
        = s.ledger.sum + d.ledger.sum := by
  simp only [F32.TransferMoney.execute, F32.Account.send_transfer,
    F32.Account.available_balance, ge_iff_le, h, if_true,
    F32.Account.receive_transfer]
  refine ⟨rfl, rfl, ?_, ?_, ?_⟩ <;>
    simp [F32.Account.decrease_balance, F32.Account.increase_balance,
      List.sum_append] <;>
    ring

/-- Witness for `execute_conserves_entry_sum`: the demo scenario, transferring
200 from a source with ledger `[1000]` to a destination with ledger `[100]`. -/
theorem execute_conserves_entry_sum_witness :
    (F32.TransferMoney.mk (F32.Account.mk [1000]) (F32.Account.mk [100])
        200).execute.1.ledger = (F32.Account.mk [1000]).ledger ++ [-200] ∧
    (F32.TransferMoney.mk (F32.Account.mk [1000]) (F32.Account.mk [100])
        200).execute.2.ledger = (F32.Account.mk [100]).ledger ++ [200] ∧
    (F32.TransferMoney.mk (F32.Account.mk [1000]) (F32.Account.mk [100])
        200).execute.1.ledger.sum = (F32.Account.mk [1000]).ledger.sum - 200 ∧
    (F32.TransferMoney.mk (F32.Account.mk [1000]) (F32.Account.mk [100])
        200).execute.2.ledger.sum = (F32.Account.mk [100]).ledger.sum + 200 ∧
    (F32.TransferMoney.mk (F32.Account.mk [1000]) (F32.Account.mk [100])
        200).execute.1.ledger.sum
      + (F32.TransferMoney.mk (F32.Account.mk [1000]) (F32.Account.mk [100])
          200).execute.2.ledger.sum
      = (F32.Account.mk [1000]).ledger.sum + (F32.Account.mk [100]).ledger.sum :=
  execute_conserves_entry_sum (F32.Account.mk [1000]) (F32.Account.mk [100])
    200 (by norm_num [F32.Account.current_balance, F32.roundF32_1000])

/-- C2: for every pair of accounts and every amount with
`amount > source.current_balance()` before the call, `execute` raises no error
(it is a total function) and returns both accounts exactly unchanged: same
ledger entries, same order, no partial mutation. -/
theorem execute_insufficient_noop (s d : Account) (amount : ℚ)
    (h : s.current_balance < amount) :
    (TransferMoney.mk s d amount).execute = (s, d) := by
  simp [TransferMoney.execute, Account.send_transfer, Account.available_balance,
    not_le.mpr h]

/-- Witness for `execute_insufficient_noop`: the insufficient-funds scenario,
transferring 200 from a source with balance 50. -/
theorem execute_insufficient_noop_witness :
    (TransferMoney.mk (Account.mk [50]) (Account.mk [0]) 200).execute
        = (Account.mk [50], Account.mk [0]) :=
  execute_insufficient_noop (Account.mk [50]) (Account.mk [0]) 200 (by
    simp [Account.current_balance]
    norm_num)

/-- C3 counterexample: `current_balance` does not return the arithmetic sum of
the entries: with `f32` arithmetic the ledger `[16777216, 1]` folds to
`16777216` (the addition `2^24 + 1` rounds back to `2^24`, ties to even),
while the arithmetic sum of the entries is `16777217`. -/
theorem current_balance_not_arithmetic_sum :
    (F32.Account.mk [16777216, 1]).current_balance
      ≠ (F32.Account.mk [16777216, 1]).ledger.sum := by
  norm_num [F32.Account.current_balance, F32.roundF32_16777216,
    F32.roundF32_16777217]

/-- C3 (amended): `current_balance` returns the IEEE-754 binary32 left-fold of
the ledger entries — each partial sum rounded to nearest, ties to even — not
in general their exact arithmetic sum; it is a pure total function
`Account → ℚ` (no side effect on the ledger, never fails), returns zero for an
empty ledger, and agrees with the arithmetic sum whenever every addition step
rounds exactly. -/
theorem current_balance_rounded_fold :
    (F32.Account.mk []).current_balance = 0 ∧
    (∀ a : F32.Account,
      a.current_balance
        = a.ledger.foldl (fun x y => F32.roundF32 (x + y)) 0) ∧
    (∀ a : F32.Account, F32.exactAddFrom 0 a.ledger = true →
      a.current_balance = a.ledger.sum) :=
  ⟨rfl, fun _ => rfl, fun a h => F32.current_balance_exact a h⟩

/-- Witness for `current_balance_rounded_fold`: on the ledger `[5, 7]` every
addition rounds exactly, and the balance equals the arithmetic sum. -/
theorem current_balance_rounded_fold_witness :
    F32.exactAddFrom 0 (F32.Account.mk [5, 7]).ledger = true ∧
    (F32.Account.mk [5, 7]).current_balance
      = (F32.Account.mk [5, 7]).ledger.sum :=
  ⟨by norm_num [F32.exactAddFrom, F32.roundF32_5, F32.roundF32_12],
   current_balance_rounded_fold.2.2 (F32.Account.mk [5, 7])
     (by norm_num [F32.exactAddFrom, F32.roundF32_5, F32.roundF32_12])⟩

/-- C4 counterexample: the program's balance is not independent of entry
order: with `f32` arithmetic the ledger `[16777216, 1, 1]` folds to
`16777216`, while its permutation `[1, 1, 16777216]` folds to `16777218`. -/
theorem current_balance_order_dependent :
    (F32.Account.mk [16777216, 1, 1]).ledger.Perm
      (F32.Account.mk [1, 1, 16777216]).ledger ∧
    (F32.Account.mk [16777216, 1, 1]).current_balance
      ≠ (F32.Account.mk [1, 1, 16777216]).current_balance := by
  refine ⟨by decide, ?_⟩
  norm_num [F32.Account.current_balance, F32.roundF32_16777216,
    F32.roundF32_16777217, F32.roundF32_1, F32.roundF32_2,
    F32.roundF32_16777218]

/-- C4 (amended): for every ledger and every permutation of its entries, the
exact arithmetic sum of the entries is unchanged, and `current_balance` on the
permuted ledger equals `current_balance` on the original whenever every
addition step rounds exactly on both; in general the computed `f32` balance
depends on entry order (see the counterexample). -/
theorem entry_sum_perm_invariant (a b : F32.Account) (h : a.ledger.Perm b.ledger)
    (ha : F32.exactAddFrom 0 a.ledger = true)
    (hb : F32.exactAddFrom 0 b.ledger = true) :
    a.ledger.sum = b.ledger.sum ∧ a.current_balance = b.current_balance := by
  refine ⟨h.sum_eq, ?_⟩
  rw [F32.current_balance_exact a ha, F32.current_balance_exact b hb]
  exact h.sum_eq

/-- Witness for `entry_sum_perm_invariant`: the ledger `[1, 2, 3]` and its
reordering `[3, 1, 2]`, on which every addition is exact. -/
theorem entry_sum_perm_invariant_witness :
    (F32.Account.mk [1, 2, 3]).ledger.sum
        = (F32.Account.mk [3, 1, 2]).ledger.sum ∧
    (F32.Account.mk [1, 2, 3]).current_balance
        = (F32.Account.mk [3, 1, 2]).current_balance :=
  entry_sum_perm_invariant (F32.Account.mk [1, 2, 3]) (F32.Account.mk [3, 1, 2])
    (by decide)
    (by norm_num [F32.exactAddFrom, F32.roundF32_1, F32.roundF32_3,
      F32.roundF32_6])
    (by norm_num [F32.exactAddFrom, F32.roundF32_3, F32.roundF32_4,
      F32.roundF32_6])

/-- C5: for every account and every amount, `decrease_balance` appends exactly
the single entry `-amount` to the ledger and `increase_balance` appends
exactly the single entry `amount`; both apply unconditionally (the equations
hold for all amounts, with no precondition, including amounts exceeding the
current balance). -/
theorem balance_mutations_append (a : Account) (amount : ℚ) :
    (a.decrease_balance amount).ledger = a.ledger ++ [-amount] ∧
    (a.increase_balance amount).ledger = a.ledger ++ [amount] :=
  ⟨rfl, rfl⟩

/-- C6: `execute` queries the source's available balance; if
`available_balance ≥ amount` it applies `decrease_balance` on the source and
then `increase_balance` on the destination, appending exactly the one entry
`-amount` (the negated amount) to the source ledger and the one entry
`amount` to the destination ledger; otherwise it changes nothing. -/
theorem execute_follows_steps (t : TransferMoney) :
    t.execute =
      (if t.source.available_balance ≥ t.amount
        then (t.source.decrease_balance t.amount,
              t.destination.increase_balance t.amount)
        else (t.source, t.destination)) ∧
    t.execute.1.ledger =
      (if t.source.available_balance ≥ t.amount
        then t.source.ledger ++ [-t.amount] else t.source.ledger) ∧
    t.execute.2.ledger =
      (if t.source.available_balance ≥ t.amount
        then t.destination.ledger ++ [t.amount] else t.destination.ledger) := by
  refine ⟨rfl, ?_, ?_⟩ <;>
    by_cases h : t.source.available_balance ≥ t.amount <;>
      simp [TransferMoney.execute, Account.send_transfer, h,
        Account.receive_transfer, Account.decrease_balance,
        Account.increase_balance]

/-- C7: for every pair of accounts where the source balance is non-negative,
executing a transfer of amount 0 passes the balance check, appends a `0` entry
to the source ledger and a `0` entry to the destination ledger, and leaves
both balances unchanged. -/
theorem execute_zero_amount (s d : Account) (h : 0 ≤ s.current_balance) :
    (TransferMoney.mk s d 0).execute.1.ledger = s.ledger ++ [0] ∧
    (TransferMoney.mk s d 0).execute.2.ledger = d.ledger ++ [0] ∧
    (TransferMoney.mk s d 0).execute.1.current_balance = s.current_balance ∧
    (TransferMoney.mk s d 0).execute.2.current_balance = d.current_balance := by
  simp only [TransferMoney.execute, Account.send_transfer,
    Account.available_balance, ge_iff_le, h, if_true, Account.receive_transfer]
  refine ⟨by simp [Account.decrease_balance], rfl, ?_, ?_⟩
  · rw [decrease_balance_balance]
    ring
  · rw [increase_balance_balance]
    ring

/-- Witness for `execute_zero_amount`: a zero-amount transfer between an
account with balance 7 and an account with balance 3. -/
theorem execute_zero_amount_witness :
    (TransferMoney.mk (Account.mk [7]) (Account.mk [3]) 0).execute.1.ledger
        = (Account.mk [7]).ledger ++ [0] ∧
    (TransferMoney.mk (Account.mk [7]) (Account.mk [3]) 0).execute.2.ledger
        = (Account.mk [3]).ledger ++ [0] ∧
    (TransferMoney.mk (Account.mk [7]) (Account.mk [3]) 0).execute.1.current_balance
        = (Account.mk [7]).current_balance ∧
    (TransferMoney.mk (Account.mk [7]) (Account.mk [3]) 0).execute.2.current_balance
        = (Account.mk [3]).current_balance :=
  execute_zero_amount (Account.mk [7]) (Account.mk [3]) (by
    simp [Account.current_balance])

/-- C8: a transfer from an account to itself, when `amount ≤ balance`, appends
the entry `-amount` and the equal opposite entry `amount` to that single
ledger, leaves the net balance unchanged, and increases the entry count by 2.
(The Rust borrow checker rejects aliasing the same `Account` behind both
`&mut` arguments; this states the sequential effect of the transfer body
threaded through one account.) -/
theorem self_transfer_nets_zero (a : Account) (amount : ℚ)
    (h : amount ≤ a.current_balance) :
    (a.self_transfer amount).ledger = a.ledger ++ [-amount, amount] ∧
    (a.self_transfer amount).current_balance = a.current_balance ∧
    (a.self_transfer amount).ledger.length = a.ledger.length + 2 := by
  simp only [Account.self_transfer, Account.available_balance, ge_iff_le, h,
    if_true, Account.receive_transfer]
  refine ⟨?_, ?_, ?_⟩
  · simp [Account.decrease_balance, Account.increase_balance]
  · rw [increase_balance_balance, decrease_balance_balance]
    ring
  · simp [Account.decrease_balance, Account.increase_balance]

/-- Witness for `self_transfer_nets_zero`: a self-transfer of 4 on an account
with balance 10. -/
theorem self_transfer_nets_zero_witness :
    ((Account.mk [10]).self_transfer 4).ledger
        = (Account.mk [10]).ledger ++ [-4, 4] ∧
    ((Account.mk [10]).self_transfer 4).current_balance
        = (Account.mk [10]).current_balance ∧
    ((Account.mk [10]).self_transfer 4).ledger.length
        = (Account.mk [10]).ledger.length + 2 :=
  self_transfer_nets_zero (Account.mk [10]) 4 (by
    simp [Account.current_balance]
    norm_num)

/-- C9: every operation is append-only.  `current_balance` does not mutate at
all (it is a function `Account → ℚ` in the embedding, mirroring `&self`), and
each mutating operation — `decrease_balance`, `increase_balance`,
`receive_transfer`, `send_transfer` on both accounts, `execute` on both
accounts, and the aliased `self_transfer` — leaves the previous ledger
contents as an initial segment of the new ledger: nothing is removed,
rewritten or reordered. -/
theorem operations_append_only (a sink : Account) (amount : ℚ)
    (t : TransferMoney) :
    ledgerExtends a (a.decrease_balance amount) ∧
    ledgerExtends a (a.increase_balance amount) ∧
    ledgerExtends a (a.receive_transfer amount) ∧
    ledgerExtends a (a.send_transfer amount sink).1 ∧
    ledgerExtends sink (a.send_transfer amount sink).2 ∧
    ledgerExtends t.source t.execute.1 ∧
    ledgerExtends t.destination t.execute.2 ∧
    ledgerExtends a (a.self_transfer amount) := by
  refine ⟨⟨[-amount], rfl⟩, ⟨[amount], rfl⟩, ⟨[amount], rfl⟩, ?_, ?_, ?_, ?_, ?_⟩
  · by_cases h : a.available_balance ≥ amount <;>
      simp [Account.send_transfer, h, ledgerExtends, Account.decrease_balance]
  · by_cases h : a.available_balance ≥ amount <;>
      simp [Account.send_transfer, h, ledgerExtends, Account.receive_transfer,
        Account.increase_balance]
  · by_cases h : t.source.available_balance ≥ t.amount <;>
      simp [TransferMoney.execute, Account.send_transfer, h, ledgerExtends,
        Account.decrease_balance]
  · by_cases h : t.source.available_balance ≥ t.amount <;>
      simp [TransferMoney.execute, Account.send_transfer, h, ledgerExtends,
        Account.receive_transfer, Account.increase_balance]
  · by_cases h : a.available_balance ≥ amount <;>
      simp [Account.self_transfer, h, ledgerExtends, Account.receive_transfer,
        Account.decrease_balance, Account.increase_balance]

/-- C10 counterexample: with `f32` arithmetic, transferring `-1` from a source
whose ledger is `[100000000]` satisfies the claim's preconditions (the amount
is negative and at most the available balance), and the entry `+1` is pushed,
yet the source's computed balance does not increase by `|−1|`: the addition
`100000000 + 1` rounds back to `100000000`. -/
theorem negative_amount_delta_counterexample :
    ((-1 : ℚ) < 0) ∧
    ((-1 : ℚ) ≤ (F32.Account.mk [100000000]).available_balance) ∧
    ¬ ((F32.TransferMoney.mk (F32.Account.mk [100000000])
          (F32.Account.mk []) (-1)).execute.1.current_balance
        = (F32.Account.mk [100000000]).current_balance + 1) := by
  have hbal : (F32.Account.mk [100000000]).current_balance = 100000000 := by
    norm_num [F32.Account.current_balance, F32.roundF32_100000000]
  have hsrc : (F32.TransferMoney.mk (F32.Account.mk [100000000])
      (F32.Account.mk []) (-1)).execute.1.current_balance = 100000000 := by
    norm_num [F32.TransferMoney.execute, F32.Account.send_transfer,
      F32.Account.available_balance, F32.Account.decrease_balance,
      F32.Account.receive_transfer, F32.Account.increase_balance,
      F32.Account.current_balance, F32.roundF32_100000000,
      F32.roundF32_100000001]
  refine ⟨by norm_num, ?_, ?_⟩
  · rw [F32.Account.available_balance, hbal]
    norm_num
  · rw [hsrc, hbal]
    norm_num

/-- C10 (amended): for every negative amount, `execute` performs no
validation: whenever the source's available balance (as the program computes
it) is at least the amount, it appends the positive entry `-amount` to the
source ledger and the negative entry `amount` to the destination ledger — a
reverse transfer that increases the source's exact entry-sum and decreases
the destination's exact entry-sum by `|amount|`, with no guard against
overdrawing the destination.  The computed `f32` balances track these deltas
only up to rounding (see the counterexample). -/
theorem execute_negative_amount_entries (s d : F32.Account) (amount : ℚ)
    (hneg : amount < 0) (h : amount ≤ s.available_balance) :
    0 < -amount ∧
    (F32.TransferMoney.mk s d amount).execute.1.ledger = s.ledger ++ [-amount] ∧
    (F32.TransferMoney.mk s d amount).execute.2.ledger = d.ledger ++ [amount] ∧
    (F32.TransferMoney.mk s d amount).execute.1.ledger.sum
        = s.ledger.sum + (-amount) ∧
    (F32.TransferMoney.mk s d amount).execute.2.ledger.sum
        = d.ledger.sum - (-amount) := by
  rw [F32.Account.available_balance] at h
  refine ⟨by linarith, ?_⟩
  simp only [F32.TransferMoney.execute, F32.Account.send_transfer,
    F32.Account.available_balance, ge_iff_le, h, if_true,
    F32.Account.receive_transfer]
  refine ⟨rfl, rfl, ?_, ?_⟩ <;>
    simp [F32.Account.decrease_balance, F32.Account.increase_balance,
      List.sum_append]

/-- Witness for `execute_negative_amount_entries`: transferring -5 between two
empty accounts pushes the entry 5 on the source and the entry -5 on the
destination, overdrawing the destination's entry-sum to -5. -/
theorem execute_negative_amount_entries_witness :
    0 < -(-5 : ℚ) ∧
    (F32.TransferMoney.mk (F32.Account.mk []) (F32.Account.mk [])
        (-5)).execute.1.ledger = (F32.Account.mk []).ledger ++ [-(-5)] ∧
    (F32.TransferMoney.mk (F32.Account.mk []) (F32.Account.mk [])
        (-5)).execute.2.ledger = (F32.Account.mk []).ledger ++ [(-5)] ∧
    (F32.TransferMoney.mk (F32.Account.mk []) (F32.Account.mk [])
        (-5)).execute.1.ledger.sum = (F32.Account.mk []).ledger.sum + (-(-5)) ∧
    (F32.TransferMoney.mk (F32.Account.mk []) (F32.Account.mk [])
        (-5)).execute.2.ledger.sum = (F32.Account.mk []).ledger.sum - (-(-5)) :=
  execute_negative_amount_entries (F32.Account.mk []) (F32.Account.mk []) (-5)
    (by norm_num)
    (by norm_num [F32.Account.available_balance, F32.Account.current_balance])
